import Mathlib

/-!
Shallow embedding of the `solid-atom` library (`src/lib/util.ts`).

The library wraps a readable/writable reactive value into an `Atom` object
and provides combinators over it.  The host reactive runtime (solid-js) is an
external collaborator; we model the parts the library consumes:

* a reactive computation context `Ctx σ` carrying the backing store `σ`, the
  list of dependencies registered so far by tracked reads (`deps`), and the
  tracking flag (solid's current Listener being non-null);
* effectful operations as state functions `M σ α := Ctx σ → Except String α × Ctx σ`
  (JS exceptions become `Except.error`, which propagates and does not roll
  back state mutations already performed);
* `untrack` runs an operation with tracking disabled and then restores the
  previous tracking flag, exactly like solid's `untrack`;
* a solid `Signal`'s setter receives either a literal value or an updater
  function of the previous value; JS discriminates with `typeof`, which we
  model with the explicit sum `SigArg`.
-/

/-- Returns the passed value; translation of the library's `IDENTITY`
(the "usable as a class" aspect is a JS artifact with no semantic content). -/
def IDENTITY {T : Type} (x : T) : T := x

/-- A reactive computation context over a backing store `σ`:
the store itself, the dependencies registered so far by tracked reads,
and whether reads are currently tracked (solid's Listener is non-null). -/
structure Ctx (σ : Type) where
  st : σ
  deps : List Nat
  tracking : Bool

/-- Effectful reactive operations: state functions that may raise a JS
exception (`Except.error`); state changes made before a throw persist. -/
abbrev M (σ α : Type) := Ctx σ → Except String α × Ctx σ

/-- Model of solid's `untrack`: run `m` with tracking disabled, then restore
the caller's tracking flag. -/
def untrack {σ α : Type} (m : M σ α) : M σ α := fun c =>
  let p := m { c with tracking := false }
  (p.1, { p.2 with tracking := c.tracking })

/-- Translation of `THROW`: `() => { throw new ReferenceError(...) }` with the
message `No setter was defined for the current ${JSON.stringify(Atom.name)}`,
where `Atom.name` is `"Atom"` and `JSON.stringify` adds the quotes. -/
def THROW {σ T : Type} : T → M σ Unit := fun _ c =>
  (Except.error "No setter was defined for the current \"Atom\"", c)

/-- Translation of `class Atom<T>`: a pair of a getter and a setter. -/
structure Atom (σ T : Type) where
  get : M σ T
  set : T → M σ Unit

/-- Translation of the `value` property's getter: `get value() { return this.get(); }`. -/
def Atom.valueGet {σ T : Type} (a : Atom σ T) : M σ T := a.get

/-- Translation of the `value` property's setter: `set value(v) { this.set(v); }`. -/
def Atom.valueSet {σ T : Type} (a : Atom σ T) (v : T) : M σ Unit := a.set v

/-- Translation of `Atom.prototype.convert`:
`convert(to, from) { return new Atom(() => to(this.value), v => this.value = from(v)); }`.
The getter applies `to` to a successful read (a throw inside `this.get`
propagates); the setter writes `from(v)` through the original setter. -/
def Atom.convert {σ T R : Type} (a : Atom σ T) (tof : T → R) (fr : R → T) : Atom σ R where
  get := fun c =>
    let p := a.valueGet c
    (p.1.map tof, p.2)
  set := fun v => a.valueSet (fr v)

/-- Translation of `Atom.prototype.update`:
`update(f = IDENTITY) { const out = f(untrack(this.get)); return this.set(out), out; }`.
`f` is a caller-supplied JS function and may throw, hence `T → Except String T`;
calling `update` with the argument omitted corresponds to
`f := fun x => Except.ok (IDENTITY x)`. -/
def Atom.update {σ T : Type} (a : Atom σ T) (f : T → Except String T) : M σ T := fun c =>
  match untrack a.get c with
  | (Except.error e, c1) => (Except.error e, c1)
  | (Except.ok prev, c1) =>
    match f prev with
    | Except.error e => (Except.error e, c1)
    | Except.ok out =>
      match a.set out c1 with
      | (Except.error e, c2) => (Except.error e, c2)
      | (Except.ok _, c2) => (Except.ok out, c2)

/-- Translation of `Atom.readOnly`: `static readOnly(f) { return new this(f, THROW); }`. -/
def Atom.readOnly {σ T : Type} (f : M σ T) : Atom σ T := ⟨f, THROW⟩

/-- Argument accepted by a solid `Signal`'s setter: JS discriminates with
`typeof v === "function"`; a function payload is an updater applied to the
previous value, anything else is stored literally. -/
inductive SigArg (T : Type) where
  | val : T → SigArg T
  | fn : (T → T) → SigArg T

/-- Model of a solid `Signal`: a tracked getter plus a setter following the
updater-function convention of `SigArg`. -/
structure Signal (σ T : Type) where
  get : M σ T
  set : SigArg T → M σ Unit

/-- Translation of `Atom.from`:
`static from([get, set]) { return new this(get, v => set(() => v)); }` —
the writer always wraps the payload in a thunk (`() => v` ignores the
previous value), so the backing cell never interprets it as an updater. -/
def Atom.fromSignal {σ T : Type} (s : Signal σ T) : Atom σ T :=
  ⟨s.get, fun v => s.set (SigArg.fn (fun _ => v))⟩

/-- The backing store of one `createSignal` cell, instrumented with the list
of values every completed write stored (so "a write was performed" is
observable even when the value is unchanged). -/
structure Cell (T : Type) where
  val : T
  writes : List T

/-- The store of a freshly created signal holding `v` (no writes yet). -/
def Cell.start {T : Type} (v : T) : Cell T := ⟨v, []⟩

/-- Model of `createSignal` over a single-cell store: reading registers
dependency `0` when tracking is on; writing resolves the updater-function
convention against the previous value and records the stored value. -/
def cellSignal (T : Type) : Signal (Cell T) T where
  get := fun c =>
    (Except.ok c.st.val, if c.tracking then { c with deps := c.deps ++ [0] } else c)
  set := fun a c =>
    let w := match a with
      | SigArg.val v => v
      | SigArg.fn f => f c.st.val
    (Except.ok (), { c with st := ⟨w, c.st.writes ++ [w]⟩ })

/-- Translation of `Atom.value`:
`static value(v, opts) { return this.from(createSignal(v, opts)); }` —
the atom over a fresh single-cell store; the initial value `v` lives in the
initial store `Cell.start v`. -/
def Atom.value (T : Type) : Atom (Cell T) T := Atom.fromSignal (cellSignal T)

/-- Model of solid's `createSelector(source, comp)`: the returned predicate
`isSelected(k)` evaluates `comp k (source())` (the subscription machinery that
makes this efficient is invisible at value level). -/
def createSelector {σ T : Type} (src : M σ T) (comp : T → T → Bool) : T → M σ Bool :=
  fun k c =>
    let p := src c
    (p.1.map (fun v => comp k v), p.2)

/-- Translation of `Atom.prototype.selector`: builds `isSelected` via
`createSelector(this.get, comp)` (here inlined, which is sound because the
model's `createSelector` is pure) and returns the factory
`(f, def) => new Atom(() => isSelected(f()), v => { const value = f();
if (v) return this.value = value; if (!comp(value, this.value)) return;
this.value = def; })`. -/
def Atom.selector {σ T : Type} (a : Atom σ T) (comp : T → T → Bool) :
    M σ T → T → Atom σ Bool :=
  fun f defv =>
    { get := fun c =>
        match f c with
        | (Except.ok fv, c1) => createSelector a.get comp fv c1
        | (Except.error e, c1) => (Except.error e, c1)
      set := fun v c =>
        match f c with
        | (Except.error e, c1) => (Except.error e, c1)
        | (Except.ok value, c1) =>
          if v then a.valueSet value c1
          else
            match a.valueGet c1 with
            | (Except.error e, c2) => (Except.error e, c2)
            | (Except.ok cur, c2) =>
              if comp value cur then a.valueSet defv c2
              else (Except.ok (), c2) }

/-!
Model of `Atom.prototype.defer`:

```
defer(schedule) {
    var clear = NO_OP;
    return new Atom(this.get, async v => {
        clear();
        await new Promise<void>(t => clear = schedule(t));
        clear = NO_OP;
        this.value = v;
    });
}
```

The deferred setter and the caller-supplied scheduler form a small transition
system.  A faithful scheduler is modelled explicitly: `schedule(t)` registers
a fresh trigger id carrying the value the continuation will write, and the
cancellation callback it returns removes that id; firing a cancelled or
unknown trigger is a no-op.  The `clear` variable is the `slot` field
(`none` is `NO_OP`, `some i` is the cancellation callback of trigger `i`).
Writes that actually reach the underlying Atom are recorded in `landed`
together with the trigger id that performed them, and the underlying value
is kept in `underlying`.
-/

/-- State of one defer-wrapped Atom together with its scheduler:
pending uncancelled triggers, the `clear` slot, the next fresh trigger id,
the underlying Atom's value, and the log of writes that reached it. -/
structure DeferState (T : Type) where
  sched : List (Nat × T)
  slot : Option Nat
  next : Nat
  underlying : T
  landed : List (Nat × T)

/-- The deferred setter `d.set v`: run `clear()` (cancelling the trigger the
slot points at, if any), then register a fresh trigger via `schedule` and
store the cancellation callback it returned. -/
def dset {T : Type} (v : T) (s : DeferState T) : DeferState T :=
  let s1 :=
    match s.slot with
    | none => s
    | some i => { s with sched := s.sched.filter (fun p => p.1 != i) }
  { s1 with sched := s1.sched ++ [(s.next, v)], slot := some s.next, next := s.next + 1 }

/-- The scheduler fires trigger `i`: if it is still registered, the deferred
setter's continuation resumes — it resets `clear` to `NO_OP` and then calls
the original Atom's setter with the scheduled value; a cancelled or unknown
trigger does nothing. -/
def dfire {T : Type} (i : Nat) (s : DeferState T) : DeferState T :=
  match s.sched.find? (fun p => p.1 == i) with
  | none => s
  | some (_, v) =>
    { s with sched := s.sched.filter (fun p => p.1 != i),
             slot := none,
             underlying := v,
             landed := s.landed ++ [(i, v)] }

/-- Events observable on a defer-wrapped Atom: a call to its setter, or the
scheduler firing a trigger. -/
inductive DeferEv (T : Type) where
  | set : T → DeferEv T
  | fire : Nat → DeferEv T

/-- One event step of the defer transition system. -/
def dstep {T : Type} : DeferEv T → DeferState T → DeferState T
  | DeferEv.set v, s => dset v s
  | DeferEv.fire i, s => dfire i s

/-- Run a list of events in order. -/
def drun {T : Type} : List (DeferEv T) → DeferState T → DeferState T
  | [], s => s
  | e :: t, s => drun t (dstep e s)

/-- The state of a freshly built defer-wrapped Atom over underlying value
`v0`: `clear = NO_OP`, nothing scheduled, nothing landed. -/
def dinit {T : Type} (v0 : T) : DeferState T := ⟨[], none, 0, v0, []⟩

/-- Whether a write performed by trigger `i` ever reached the underlying Atom. -/
def idLanded {T : Type} (i : Nat) (s : DeferState T) : Bool :=
  s.landed.any (fun p => p.1 == i)

/-!
Model of `Atom.source`:

```
static source(bind, f = createSignal) {
    return this.unwrap(createMemo(on(bind, x => x as Atom<T | undefined> ?? this.from(f()))));
}
```

The binding accessor is backed by a solid signal holding the externally
supplied Atom (or `undefined`), with solid's default reference-equality
comparator — as in the library's README usage `() => props.atom`.  The memo
built over `on(bind, ...)` therefore recomputes exactly when the binding
signal's value changes; each recomputation with an undefined binding
evaluates `this.from(f())`, calling the cell factory and creating a brand-new
cell.  `unwrap` resolves the memo's current Atom on every access.  External
Atoms are identified by indices into `exts`; fallback cells are appended to
`cells` in creation order, so `cells.length` counts the cell-factory calls.
-/

/-- The Atom a `source` currently forwards to: an externally supplied Atom or
a locally created fallback cell. -/
inductive SrcTarget where
  | ext : Nat → SrcTarget
  | cell : Nat → SrcTarget
deriving DecidableEq

/-- State of one `Atom.source` instance: the binding signal's current value,
the memo's cached target, the fallback cells created so far (in creation
order), and the external Atoms' stored values. -/
structure SrcState (T : Type) where
  bindVal : Option Nat
  active : SrcTarget
  cells : List T
  exts : List T

/-- The memo's computation `x => x ?? this.from(f())` running with binding
result `b`: a defined Atom is used directly; `undefined` calls the cell
factory (which creates a fresh cell holding `start`) and targets it. -/
def srcRecompute {T : Type} (start : T) (b : Option Nat) (s : SrcState T) : SrcState T :=
  match b with
  | some e => { s with bindVal := b, active := SrcTarget.ext e }
  | none => { s with bindVal := none,
                     active := SrcTarget.cell s.cells.length,
                     cells := s.cells ++ [start] }

/-- Events observable on a `source` Atom: the binding signal is written with
a (possibly unchanged) value, or a value is written through the source. -/
inductive SrcEv (T : Type) where
  | setBind : Option Nat → SrcEv T
  | write : T → SrcEv T
deriving DecidableEq

/-- One event step: writing the binding signal recomputes the memo only when
the value actually changed (solid's default signal comparator skips equal
writes, so the memo is never notified); a write through the source resolves
the currently active target and stores into it. -/
def sstep {T : Type} (start : T) : SrcEv T → SrcState T → SrcState T
  | SrcEv.setBind b, s => if b = s.bindVal then s else srcRecompute start b s
  | SrcEv.write v, s =>
    match s.active with
    | SrcTarget.ext e => { s with exts := s.exts.set e v }
    | SrcTarget.cell i => { s with cells := s.cells.set i v }

/-- Run a list of events in order. -/
def srun {T : Type} (start : T) : List (SrcEv T) → SrcState T → SrcState T
  | [], s => s
  | e :: t, s => srun start t (sstep start e s)

/-- Reading through the source Atom: resolve the active target and read its
stored value (`dflt` is only returned on an out-of-range index and never
occurs on reachable states). -/
def srcRead {T : Type} (dflt : T) (s : SrcState T) : T :=
  match s.active with
  | SrcTarget.ext e => s.exts.getD e dflt
  | SrcTarget.cell i => s.cells.getD i dflt

/-- Construction of the source Atom: `createMemo` runs its computation once
immediately, with the binding signal's initial value `b0`. -/
def srcStart {T : Type} (start : T) (exts0 : List T) (b0 : Option Nat) : SrcState T :=
  match b0 with
  | some e => ⟨some e, SrcTarget.ext e, [], exts0⟩
  | none => ⟨none, SrcTarget.cell 0, [start], exts0⟩

/-- C7: for every Atom `a` and functions `to`, `from`, `a.convert(to, from)`
reads as `to(a.get())` and writes as `a.set(from(v))` with no caching (every
access re-runs the underlying operation); in particular on a value Atom the
converted read is `to` of the stored value, and after setting the converted
Atom to `w` the underlying value is `from(w)`. -/
theorem convert_composition_roundtrip :
    (∀ (σ T R : Type) (a : Atom σ T) (tof : T → R) (fr : R → T) (v : R) (c : Ctx σ),
      (a.convert tof fr).get c = ((a.get c).1.map tof, (a.get c).2) ∧
      (a.convert tof fr).set v c = a.set (fr v) c) ∧
    (∀ (T R : Type) (tof : T → R) (fr : R → T) (w : R) (c : Ctx (Cell T)),
      (((Atom.value T).convert tof fr).get c).1 = Except.ok (tof c.st.val) ∧
      ((((Atom.value T).convert tof fr).set w c).2).st.val = fr w ∧
      ((Atom.value T).get ((((Atom.value T).convert tof fr).set w c)).2).1 =
        Except.ok (fr w)) :=
  ⟨fun _ _ _ _ _ _ _ _ => ⟨rfl, rfl⟩, fun _ _ _ _ _ _ => ⟨rfl, rfl, rfl⟩⟩

/-- C8: for an Atom created via `Atom.value(v)`, setting `w` and reading back
returns `w` for every `w` of every type `T` — including function-typed values,
since the writer wraps the payload in a thunk that the backing cell's
updater-function convention resolves back to `w` itself; the write is stored
as-is and recorded. -/
theorem value_set_get_roundtrip :
    ∀ (T : Type) (w : T) (c : Ctx (Cell T)),
      ((Atom.value T).set w c).1 = Except.ok () ∧
      (((Atom.value T).set w c).2).st.val = w ∧
      (((Atom.value T).set w c).2).st.writes = c.st.writes ++ [w] ∧
      ((Atom.value T).get (((Atom.value T).set w c)).2).1 = Except.ok w :=
  fun _ _ _ => ⟨rfl, rfl, rfl, rfl⟩

/-- C9: an Atom created via `Atom.readOnly(get)` forwards every read to `get`
unchanged, while every write — through `set` or through the `value` property —
raises the error naming the Atom kind and stating that no setter was defined;
the error is returned to the caller, never recovered internally. -/
theorem readOnly_get_passthrough_set_throws :
    ∀ (σ T : Type) (g : M σ T) (v : T) (c : Ctx σ),
      (Atom.readOnly g).get = g ∧
      (Atom.readOnly g).set v c =
        (Except.error "No setter was defined for the current \"Atom\"", c) ∧
      (Atom.readOnly g).valueSet v c =
        (Except.error "No setter was defined for the current \"Atom\"", c) :=
  fun _ _ _ _ _ => ⟨rfl, rfl, rfl⟩

/-- C6: on a value Atom, `update f` reads the current value untracked (the
dependency list of the calling context is unchanged even when tracking is on),
computes `out = f(previous)`, writes `out` through the setter and returns it;
with `f` omitted (`IDENTITY`) the current value is written back unchanged and
the write is still performed (it appears in the cell's write log). -/
theorem update_untracked_read_then_write :
    (∀ (T : Type) (g : T → T) (c : Ctx (Cell T)),
      (Atom.value T).update (fun x => Except.ok (g x)) c =
        (Except.ok (g c.st.val),
         ⟨⟨g c.st.val, c.st.writes ++ [g c.st.val]⟩, c.deps, c.tracking⟩)) ∧
    (∀ (T : Type) (c : Ctx (Cell T)),
      (Atom.value T).update (fun x => Except.ok (IDENTITY x)) c =
        (Except.ok c.st.val,
         ⟨⟨c.st.val, c.st.writes ++ [c.st.val]⟩, c.deps, c.tracking⟩)) :=
  ⟨fun _ _ _ => rfl, fun _ _ => rfl⟩

/-- C10: when the caller-supplied `f` throws, `update` propagates the
exception: the untracked read happens, `f` raises, the setter is never invoked
and the resulting context is exactly the post-read context — on a value Atom
the store (value and write log) and dependency list are fully unchanged. -/
theorem update_throwing_f_never_writes :
    (∀ (σ T : Type) (a : Atom σ T) (f : T → Except String T) (c c1 : Ctx σ)
        (prev : T) (e : String),
      untrack a.get c = (Except.ok prev, c1) →
      f prev = Except.error e →
      a.update f c = (Except.error e, c1)) ∧
    (∀ (T : Type) (f : T → Except String T) (c : Ctx (Cell T)) (e : String),
      f c.st.val = Except.error e →
      (Atom.value T).update f c = (Except.error e, c)) := by
  constructor
  · intro σ T a f c c1 prev e h1 h2
    simp [Atom.update, h1, h2]
  · intro T f c e h
    simp [Atom.update, untrack, Atom.value, Atom.fromSignal, cellSignal, h]

/-- Witness for `update_throwing_f_never_writes` at a concrete input. -/
theorem update_throwing_f_never_writes_witness :
    ((fun _ : Int => (Except.error "boom" : Except String Int)) 1 =
      Except.error "boom") ∧
    (Atom.value Int).update (fun _ => Except.error "boom") ⟨⟨1, []⟩, [], true⟩ =
      (Except.error "boom", ⟨⟨1, []⟩, [], true⟩) :=
  ⟨rfl, update_throwing_f_never_writes.2 Int (fun _ => Except.error "boom")
    ⟨⟨1, []⟩, [], true⟩ "boom" rfl⟩

/-- C5: for a boolean Atom produced by `selector` over a value Atom, with
comparator `comp`, candidate accessor `f` (a pure read returning `fv`) and
default `defv`: setting `true` writes the candidate `fv` into the parent;
setting `false` is a no-op on the parent's store when the candidate is not
currently selected (`comp fv parent = false`), and writes `defv` into the
parent when it is (`comp fv parent = true`). -/
theorem selector_set_semantics :
    ∀ (T : Type) (comp : T → T → Bool) (f : M (Cell T) T) (defv fv : T)
      (c : Ctx (Cell T)),
      f c = (Except.ok fv, c) →
      (((((Atom.value T).selector comp f defv).set true c).2).st.val = fv ∧
       ((((Atom.value T).selector comp f defv).set true c).2).st.writes =
         c.st.writes ++ [fv]) ∧
      (comp fv c.st.val = false →
        ((((Atom.value T).selector comp f defv).set false c).1 = Except.ok () ∧
         ((((Atom.value T).selector comp f defv).set false c).2).st = c.st)) ∧
      (comp fv c.st.val = true →
        (((((Atom.value T).selector comp f defv).set false c).2).st.val = defv ∧
         ((((Atom.value T).selector comp f defv).set false c).2).st.writes =
           c.st.writes ++ [defv])) := by
  intro T comp f defv fv c hf
  refine ⟨?_, ?_, ?_⟩
  · simp [Atom.selector, Atom.valueSet, Atom.valueGet, Atom.value,
      Atom.fromSignal, cellSignal, hf]
  · intro hc
    cases htr : c.tracking <;>
      simp [Atom.selector, Atom.valueSet, Atom.valueGet, Atom.value,
        Atom.fromSignal, cellSignal, hf, hc, htr]
  · intro hc
    cases htr : c.tracking <;>
      simp [Atom.selector, Atom.valueSet, Atom.valueGet, Atom.value,
        Atom.fromSignal, cellSignal, hf, hc, htr]

/-- Witness for `selector_set_semantics` at concrete inputs: parent holds `3`,
candidate accessor returns `3` (selected) resp. a parent holding `4`
(not selected). -/
theorem selector_set_semantics_witness :
    ((fun c => (Except.ok 3, c) : M (Cell Int) Int) ⟨⟨3, []⟩, [], false⟩ =
      (Except.ok 3, ⟨⟨3, []⟩, [], false⟩)) ∧
    ((((Atom.value Int).selector (fun x y => x == y) (fun c => (Except.ok 3, c))
        7).set true ⟨⟨3, []⟩, [], false⟩).2).st.val = 3 ∧
    ((((Atom.value Int).selector (fun x y => x == y) (fun c => (Except.ok 3, c))
        7).set false ⟨⟨3, []⟩, [], false⟩).2).st.val = 7 ∧
    ((((Atom.value Int).selector (fun x y => x == y) (fun c => (Except.ok 3, c))
        7).set false ⟨⟨4, []⟩, [], false⟩).2).st = (⟨4, []⟩ : Cell Int) :=
  ⟨rfl,
   ((selector_set_semantics Int (fun x y => x == y) (fun c => (Except.ok 3, c))
      7 3 ⟨⟨3, []⟩, [], false⟩ rfl).1).1,
   ((selector_set_semantics Int (fun x y => x == y) (fun c => (Except.ok 3, c))
      7 3 ⟨⟨3, []⟩, [], false⟩ rfl).2.2 (by decide)).1,
   ((selector_set_semantics Int (fun x y => x == y) (fun c => (Except.ok 3, c))
      7 3 ⟨⟨4, []⟩, [], false⟩ rfl).2.1 (by decide)).2⟩

/-- C2: the resolution inside `Atom.source` is memoized with value-level
on-change semantics: any number of re-evaluations of the binding that return
the current value leave the whole state unchanged — in particular the memo's
cached target is kept and the cell factory is never called again (the list of
created cells is unchanged). -/
theorem source_unchanged_bind_skips_resolution :
    ∀ (T : Type) (start : T) (s : SrcState T) (n : Nat),
      srun start (List.replicate n (SrcEv.setBind s.bindVal)) s = s := by
  intro T start s n
  induction n with
  | zero => rfl
  | succ n ih => simp [List.replicate_succ, srun, sstep, ih]

/-- C1 counterexample: start a source with an undefined binding (fallback
cell 0 is created holding the factory default `0`), store `5` in it, supply
the external binding (atom 0), then remove the binding again.  The memo
recomputes, the computation `x ?? this.from(f())` calls the cell factory
afresh, and a second fallback cell becomes the active target: two cells now
exist (refuting "created at most once"), the active target is cell 1, not the
cell that held the locally entered `5`, and reading the source yields the
factory default `0`, not `5`. -/
theorem source_fallback_recreated_counterexample :
    (srcStart (0 : Int) [100] none).cells = [0] ∧
    (srcStart (0 : Int) [100] none).active = SrcTarget.cell 0 ∧
    (srun 0 [SrcEv.write 5, SrcEv.setBind (some 0), SrcEv.setBind none]
        (srcStart (0 : Int) [100] none)).cells = [5, 0] ∧
    (srun 0 [SrcEv.write 5, SrcEv.setBind (some 0), SrcEv.setBind none]
        (srcStart (0 : Int) [100] none)).active = SrcTarget.cell 1 ∧
    srcRead 0 (srun 0 [SrcEv.write 5, SrcEv.setBind (some 0), SrcEv.setBind none]
        (srcStart (0 : Int) [100] none)) = 0 ∧
    ¬ srcRead 0 (srun 0 [SrcEv.write 5, SrcEv.setBind (some 0), SrcEv.setBind none]
        (srcStart (0 : Int) [100] none)) = 5 := by
  refine ⟨rfl, rfl, rfl, rfl, rfl, ?_⟩
  decide

/-- C1 amended: the fallback cell is created lazily — none exists while the
binding is supplied, and one is created exactly when a resolution yields
undefined.  While the binding keeps returning undefined the memo never
recomputes, so the same cell stays active with its stored value untouched
(re-evaluations of the undefined binding change nothing at all).  But after
the external binding is supplied and then removed again, the resolution runs
the cell factory afresh: a brand-new cell (at the next index, holding the
factory default) becomes active, and the earlier cell's value is not reused. -/
theorem source_fallback_lifecycle :
    (∀ (T : Type) (start : T) (s : SrcState T) (evs : List (SrcEv T)),
      s.bindVal = none → (∀ e ∈ evs, e = SrcEv.setBind none) →
      srun start evs s = s) ∧
    (∀ (T : Type) (start : T) (s : SrcState T) (e0 : Nat),
      s.bindVal = some e0 →
      sstep start (SrcEv.setBind none) s =
        ⟨none, SrcTarget.cell s.cells.length, s.cells ++ [start], s.exts⟩) ∧
    (∀ (T : Type) (start : T) (exts0 : List T) (e0 : Nat),
      (srcStart start exts0 (some e0)).cells = [] ∧
      (srcStart start exts0 none).cells = [start] ∧
      (srcStart start exts0 none).active = SrcTarget.cell 0) := by
  refine ⟨?_, ?_, ?_⟩
  · intro T start s evs hb hall
    induction evs with
    | nil => rfl
    | cons e t ih =>
      have he : e = SrcEv.setBind none := hall e (by simp)
      subst he
      have hstep : sstep start (SrcEv.setBind none) s = s := by
        simp [sstep, hb]
      show srun start t (sstep start (SrcEv.setBind none) s) = s
      rw [hstep]
      exact ih (fun e' he' => hall e' (by simp [he']))
  · intro T start s e0 hb
    simp [sstep, hb, srcRecompute]
  · intro T start exts0 e0
    exact ⟨rfl, rfl, rfl⟩

/-- Witness for `source_fallback_lifecycle` at concrete inputs: a source whose
fallback cell holds `5` is untouched by two further undefined re-evaluations;
a source bound to external atom 0 gets a fresh second cell when the binding is
removed; a source built with a supplied binding creates no cell. -/
theorem source_fallback_lifecycle_witness :
    srun (0 : Int) [SrcEv.setBind none, SrcEv.setBind none]
        ⟨none, SrcTarget.cell 0, [5], []⟩ = ⟨none, SrcTarget.cell 0, [5], []⟩ ∧
    sstep (0 : Int) (SrcEv.setBind none) ⟨some 0, SrcTarget.ext 0, [5], [7]⟩ =
      ⟨none, SrcTarget.cell 1, [5, 0], [7]⟩ ∧
    (srcStart (0 : Int) [7] (some 0)).cells = [] :=
  ⟨source_fallback_lifecycle.1 Int 0 ⟨none, SrcTarget.cell 0, [5], []⟩
      [SrcEv.setBind none, SrcEv.setBind none] rfl (by decide),
   source_fallback_lifecycle.2.1 Int 0 ⟨some 0, SrcTarget.ext 0, [5], [7]⟩ 0 rfl,
   (source_fallback_lifecycle.2.2 Int 0 [7] 0).1⟩

/-- Reachable-state invariant of a defer-wrapped Atom: either nothing is
pending, or exactly one trigger is pending, the `clear` slot holds its
cancellation callback, and it carries the most recently issued id. -/
def DeferInv {T : Type} (s : DeferState T) : Prop :=
  s.sched = [] ∨ ∃ i v, s.sched = [(i, v)] ∧ s.slot = some i ∧ i + 1 = s.next

theorem deferInv_dinit {T : Type} (v0 : T) : DeferInv (dinit v0) := Or.inl rfl

theorem dset_eq_of_inv {T : Type} {s : DeferState T} (h : DeferInv s) (v : T) :
    dset v s = ⟨[(s.next, v)], some s.next, s.next + 1, s.underlying, s.landed⟩ := by
  rcases h with h | ⟨i, w, hs, hslot, hn⟩
  · cases hslot : s.slot <;> simp [dset, hslot, h]
  · simp [dset, hslot, hs]

theorem deferInv_dset {T : Type} {s : DeferState T} (h : DeferInv s) (v : T) :
    DeferInv (dset v s) := by
  rw [dset_eq_of_inv h]
  exact Or.inr ⟨s.next, v, rfl, rfl, rfl⟩

theorem deferInv_dfire {T : Type} {s : DeferState T} (h : DeferInv s) (i : Nat) :
    DeferInv (dfire i s) := by
  rcases h with h | ⟨j, w, hs, hslot, hn⟩
  · simp [dfire, h]
    exact Or.inl h
  · by_cases hj : j = i
    · subst hj
      simp [dfire, hs]
      exact Or.inl rfl
    · simp [dfire, hs, hj]
      exact Or.inr ⟨j, w, hs, hslot, hn⟩

theorem deferInv_dstep {T : Type} {s : DeferState T} (h : DeferInv s) (e : DeferEv T) :
    DeferInv (dstep e s) := by
  cases e with
  | set v => exact deferInv_dset h v
  | fire i => exact deferInv_dfire h i

theorem deferInv_drun {T : Type} {s : DeferState T} (h : DeferInv s)
    (l : List (DeferEv T)) : DeferInv (drun l s) := by
  induction l generalizing s with
  | nil => exact h
  | cons e t ih => exact ih (deferInv_dstep h e)

/-- Trigger id `i` is dead in state `s`: not pending, never landed, and no
future registration can reuse it (ids grow past it). -/
def DeferAvoid {T : Type} (i : Nat) (s : DeferState T) : Prop :=
  (∀ p ∈ s.sched, p.1 ≠ i) ∧ (∀ p ∈ s.landed, p.1 ≠ i) ∧ i < s.next

theorem deferAvoid_dset {T : Type} {i : Nat} {s : DeferState T}
    (h : DeferAvoid i s) (v : T) : DeferAvoid i (dset v s) := by
  obtain ⟨h1, h2, h3⟩ := h
  refine ⟨?_, ?_, ?_⟩
  · intro p hp
    cases hslot : s.slot <;> simp [dset, hslot] at hp
    · rcases hp with hp | hp
      · exact h1 p hp
      · rw [hp]
        exact Nat.ne_of_gt h3
    · rcases hp with ⟨hp, _⟩ | hp
      · exact h1 p hp
      · rw [hp]
        exact Nat.ne_of_gt h3
  · intro p hp
    apply h2
    cases hslot : s.slot <;> simpa [dset, hslot] using hp
  · have : (dset v s).next = s.next + 1 := by
      cases hslot : s.slot <;> simp [dset, hslot]
    rw [this]
    exact Nat.lt_succ_of_lt h3

theorem deferAvoid_dfire {T : Type} {i j : Nat} {s : DeferState T}
    (h : DeferAvoid i s) : DeferAvoid i (dfire j s) := by
  obtain ⟨h1, h2, h3⟩ := h
  cases hf : s.sched.find? (fun p => p.1 == j) with
  | none =>
    simpa [dfire, hf] using ⟨h1, h2, h3⟩
  | some q =>
    obtain ⟨a, w⟩ := q
    have hmem : (a, w) ∈ s.sched := List.mem_of_find?_eq_some hf
    have haj : a = j := by
      have := List.find?_some hf
      simpa using this
    have hji : j ≠ i := haj ▸ h1 (a, w) hmem
    refine ⟨?_, ?_, ?_⟩
    · intro p hp
      apply h1
      simp [dfire, hf] at hp
      exact hp.1
    · intro p hp
      simp [dfire, hf] at hp
      rcases hp with hp | hp
      · exact h2 p hp
      · rw [hp]
        exact hji
    · simpa [dfire, hf] using h3

theorem deferAvoid_dstep {T : Type} {i : Nat} {s : DeferState T}
    (h : DeferAvoid i s) (e : DeferEv T) : DeferAvoid i (dstep e s) := by
  cases e with
  | set v => exact deferAvoid_dset h v
  | fire j => exact deferAvoid_dfire h

theorem deferAvoid_drun {T : Type} {i : Nat} {s : DeferState T}
    (h : DeferAvoid i s) (l : List (DeferEv T)) : DeferAvoid i (drun l s) := by
  induction l generalizing s with
  | nil => exact h
  | cons e t ih => exact ih (deferAvoid_dstep h e)

theorem next_mono_dstep {T : Type} (e : DeferEv T) (s : DeferState T) :
    s.next ≤ (dstep e s).next := by
  cases e with
  | set v =>
    have : (dset v s).next = s.next + 1 := by
      cases hslot : s.slot <;> simp [dset, hslot]
    simp [dstep, this]
  | fire i =>
    cases hf : s.sched.find? (fun p => p.1 == i) <;> simp [dstep, dfire, hf]

theorem next_mono_drun {T : Type} (l : List (DeferEv T)) (s : DeferState T) :
    s.next ≤ (drun l s).next := by
  induction l generalizing s with
  | nil => exact Nat.le_refl _
  | cons e t ih => exact Nat.le_trans (next_mono_dstep e s) (ih (dstep e s))

theorem drun_append {T : Type} (l1 l2 : List (DeferEv T)) (s : DeferState T) :
    drun (l1 ++ l2) s = drun l2 (drun l1 s) := by
  induction l1 generalizing s with
  | nil => rfl
  | cons e t ih => exact ih (dstep e s)

theorem idLanded_false_iff {T : Type} (i : Nat) (s : DeferState T) :
    idLanded i s = false ↔ ∀ p ∈ s.landed, p.1 ≠ i := by
  rw [← Bool.not_eq_true, idLanded, List.any_eq_true]
  constructor
  · intro h p hp hpi
    exact h ⟨p, hp, by simp [hpi]⟩
  · rintro h ⟨p, hp, hpi⟩
    exact h p hp (by simpa using hpi)

theorem dset_fresh_avoid {T : Type} {i : Nat} {s : DeferState T}
    (hInv : DeferInv s) (hlt : i < s.next)
    (hland : ∀ p ∈ s.landed, p.1 ≠ i) (v : T) : DeferAvoid i (dset v s) := by
  rw [dset_eq_of_inv hInv]
  refine ⟨?_, hland, Nat.lt_succ_of_lt hlt⟩
  intro p hp
  simp at hp
  rw [hp]
  exact Nat.ne_of_gt hlt

/-- C3: over every event trace of a defer-wrapped Atom (with a faithful
scheduler whose cancellation callbacks work), at most one pending write
exists at any time; and a write `d.set v1` that is superseded by a later
`d.set v2` before its trigger fired never reaches the underlying Atom — the
trigger id issued for `v1` never appears in the log of landed writes, no
matter what happens afterwards. -/
theorem defer_single_pending_and_superseded_never_lands :
    (∀ (T : Type) (v0 : T) (evs : List (DeferEv T)),
      (drun evs (dinit v0)).sched.length ≤ 1) ∧
    (∀ (T : Type) (v0 v1 v2 : T) (t1 t2 t3 : List (DeferEv T)),
      idLanded (drun t1 (dinit v0)).next
          (drun (t1 ++ [DeferEv.set v1] ++ t2) (dinit v0)) = false →
      idLanded (drun t1 (dinit v0)).next
          (drun (t1 ++ [DeferEv.set v1] ++ t2 ++ [DeferEv.set v2] ++ t3)
            (dinit v0)) = false) := by
  constructor
  · intro T v0 evs
    rcases deferInv_drun (deferInv_dinit v0) evs with h | ⟨i, v, hs, _, _⟩
    · simp [h]
    · simp [hs]
  · intro T v0 v1 v2 t1 t2 t3 hmid
    have hmid' :
        drun (t1 ++ [DeferEv.set v1] ++ t2) (dinit v0) =
          drun t2 (dset v1 (drun t1 (dinit v0))) := by
      rw [drun_append, drun_append]
      rfl
    have hfull :
        drun (t1 ++ [DeferEv.set v1] ++ t2 ++ [DeferEv.set v2] ++ t3) (dinit v0) =
          drun t3 (dset v2 (drun t2 (dset v1 (drun t1 (dinit v0))))) := by
      rw [drun_append, drun_append, drun_append, drun_append]
      rfl
    set s1 := drun t1 (dinit v0) with hs1
    set smid := drun t2 (dset v1 s1) with hsmid
    have hInv1 : DeferInv s1 := deferInv_drun (deferInv_dinit v0) t1
    have hInvmid : DeferInv smid := deferInv_drun (deferInv_dset hInv1 v1) t2
    have hnext2 : (dset v1 s1).next = s1.next + 1 := by
      rw [dset_eq_of_inv hInv1]
    have hlt : s1.next < smid.next := by
      have := next_mono_drun t2 (dset v1 s1)
      rw [hnext2] at this
      exact Nat.lt_of_lt_of_le (Nat.lt_succ_self _) this
    have hland : ∀ p ∈ smid.landed, p.1 ≠ s1.next := by
      rw [← idLanded_false_iff]
      rw [hmid'] at hmid
      exact hmid
    have hAvoid : DeferAvoid s1.next (dset v2 smid) :=
      dset_fresh_avoid hInvmid hlt hland v2
    have hAvoidFinal := deferAvoid_drun hAvoid t3
    rw [hfull, idLanded_false_iff]
    exact hAvoidFinal.2.1

/-- Witness for `defer_single_pending_and_superseded_never_lands` at a
concrete trace: `set 10` then `set 20` then both triggers are fired; trigger 0
(the superseded write of `10`) was cancelled and never lands. -/
theorem defer_superseded_witness :
    (drun [DeferEv.set (10 : Int), DeferEv.set 20] (dinit 0)).sched.length ≤ 1 ∧
    idLanded (drun ([] : List (DeferEv Int)) (dinit 0)).next
        (drun ([] ++ [DeferEv.set (10 : Int)] ++ []) (dinit 0)) = false ∧
    idLanded (drun ([] : List (DeferEv Int)) (dinit 0)).next
        (drun ([] ++ [DeferEv.set (10 : Int)] ++ [] ++ [DeferEv.set 20] ++
          [DeferEv.fire 0, DeferEv.fire 1]) (dinit 0)) = false :=
  ⟨defer_single_pending_and_superseded_never_lands.1 Int 0
      [DeferEv.set 10, DeferEv.set 20],
   by decide,
   defer_single_pending_and_superseded_never_lands.2 Int 0 10 20 [] []
      [DeferEv.fire 0, DeferEv.fire 1] (by decide)⟩

/-- C4: the deferred setter's ordered steps, as resulting-state equations.
On `set v` with no pending write the new trigger is registered and its
cancellation callback stored; on `set v` with a previous cancellation callback
held, that callback runs first (the previous trigger is removed from the
scheduler) and then the new trigger is registered; when a still-scheduled
trigger fires, it is consumed, the stored cancellation callback is reset to
`NO_OP` (`none`), and the original Atom's setter is invoked with the scheduled
value (the write lands and is recorded). -/
theorem defer_setter_and_trigger_steps :
    (∀ (T : Type) (v : T) (s : DeferState T), s.slot = none →
      dset v s =
        ⟨s.sched ++ [(s.next, v)], some s.next, s.next + 1,
         s.underlying, s.landed⟩) ∧
    (∀ (T : Type) (v : T) (i : Nat) (s : DeferState T), s.slot = some i →
      dset v s =
        ⟨s.sched.filter (fun p => p.1 != i) ++ [(s.next, v)], some s.next,
         s.next + 1, s.underlying, s.landed⟩) ∧
    (∀ (T : Type) (v : T) (i : Nat) (s : DeferState T),
      s.sched.find? (fun p => p.1 == i) = some (i, v) →
      dfire i s =
        ⟨s.sched.filter (fun p => p.1 != i), none, s.next, v,
         s.landed ++ [(i, v)]⟩) := by
  refine ⟨?_, ?_, ?_⟩
  · intro T v s h
    simp [dset, h]
  · intro T v i s h
    simp [dset, h]
  · intro T v i s h
    simp [dfire, h]

/-- Witness for `defer_setter_and_trigger_steps` at concrete states: a first
`set` on an idle instance, a second `set` cancelling the pending trigger, and
the surviving trigger firing its write into the underlying Atom. -/
theorem defer_setter_steps_witness :
    dset (10 : Int) ⟨[], none, 0, 0, []⟩ = ⟨[(0, 10)], some 0, 1, 0, []⟩ ∧
    dset (20 : Int) ⟨[(0, 10)], some 0, 1, 0, []⟩ =
      ⟨[(1, 20)], some 1, 2, 0, []⟩ ∧
    dfire 1 ⟨[(1, 20)], some 1, 2, (0 : Int), []⟩ =
      ⟨[], none, 2, 20, [(1, 20)]⟩ :=
  ⟨defer_setter_and_trigger_steps.1 Int 10 ⟨[], none, 0, 0, []⟩ rfl,
   defer_setter_and_trigger_steps.2.1 Int 20 0 ⟨[(0, 10)], some 0, 1, 0, []⟩ rfl,
   defer_setter_and_trigger_steps.2.2 Int 20 1 ⟨[(1, 20)], some 1, 2, 0, []⟩ rfl⟩
